import Mathlib

/-!
Verification of the NDB MCP server test client (scripts/test-mcp-client.py).

The script is embedded shallowly: strings are `List Char`, the process-wide
environment is a map `List Char → Option (List Char)`, JSON values are the
inductive `JVal`, and `json.dumps` / `json.loads` are modelled by `dumpVal`
and `loads` below (restricted to the values the client exchanges: objects,
arrays, strings, integers, booleans and null; floats and lone surrogates are
outside the model).  Control flow with exceptions is modelled with `Except`.
-/

set_option maxHeartbeats 1000000
set_option maxRecDepth 4000

/-- Characters written `\x7b` and `\x7d` in source text. -/
def lbrace : Char := Char.ofNat 123

def rbrace : Char := Char.ofNat 125

/-- Convert a Lean string literal to the `List Char` representation. -/
def chars (s : String) : List Char := s.toList

/-- Whitespace skipped by the JSON decoder (`[ \t\n\r]`, as in Python's
`json` module). -/
def isJWs (c : Char) : Bool :=
  c.toNat = 32 || c.toNat = 9 || c.toNat = 10 || c.toNat = 13

/-- Whitespace stripped by Python's `str.strip()` (ASCII fragment). -/
def isPyWs (c : Char) : Bool :=
  c.toNat = 32 || c.toNat = 9 || c.toNat = 10 || c.toNat = 13 ||
  c.toNat = 11 || c.toNat = 12

/-- `str.strip()`: drop whitespace from both ends. -/
def pyStrip (s : List Char) : List Char :=
  ((s.dropWhile isPyWs).reverse.dropWhile isPyWs).reverse

/-- ASCII decimal digit. -/
def isDig (c : Char) : Bool := 48 ≤ c.toNat && c.toNat ≤ 57

/-- JSON values exchanged by the client (no floats). -/
inductive JVal where
  | null : JVal
  | bool (b : Bool) : JVal
  | int (n : Int) : JVal
  | str (s : List Char) : JVal
  | arr (xs : List JVal) : JVal
  | obj (fs : List (List Char × JVal)) : JVal
deriving Repr

/-- Hex/decimal digit character (lowercase, as CPython's encoder emits). -/
def hexDig (d : Nat) : Char :=
  if d < 10 then Char.ofNat (48 + d) else Char.ofNat (87 + d)

/-- Four lowercase hex digits of `n < 0x10000`. -/
def hex4Digs (n : Nat) : List Char :=
  [hexDig (n / 4096 % 16), hexDig (n / 256 % 16), hexDig (n / 16 % 16),
   hexDig (n % 16)]

/-- One character of a JSON string as escaped by `json.dumps` with
`ensure_ascii=True` (CPython `py_encode_basestring_ascii`). -/
def escCh (c : Char) : List Char :=
  if c.toNat = 34 then ['\\', '"']
  else if c.toNat = 92 then ['\\', '\\']
  else if c.toNat = 10 then ['\\', 'n']
  else if c.toNat = 13 then ['\\', 'r']
  else if c.toNat = 9 then ['\\', 't']
  else if c.toNat = 8 then ['\\', 'b']
  else if c.toNat = 12 then ['\\', 'f']
  else if c.toNat < 32 then '\\' :: 'u' :: hex4Digs c.toNat
  else if c.toNat ≤ 126 then [c]
  else if c.toNat < 65536 then '\\' :: 'u' :: hex4Digs c.toNat
  else
    '\\' :: 'u' :: hex4Digs (55296 + (c.toNat - 65536) / 1024) ++
    '\\' :: 'u' :: hex4Digs (56320 + (c.toNat - 65536) % 1024)

/-- Escape a whole string body. -/
def escStr (s : List Char) : List Char :=
  s.foldr (fun c acc => escCh c ++ acc) []

/-- Decimal digits of a natural number (no leading zeros, `0 ↦ "0"`). -/
def natDigs (n : Nat) : List Char :=
  if n < 10 then [hexDig n] else natDigs (n / 10) ++ [hexDig (n % 10)]
decreasing_by exact Nat.div_lt_self (by omega) (by omega)

/-- Decimal rendering of an integer, as `json.dumps` prints Python ints. -/
def dumpInt : Int → List Char
  | Int.ofNat m => natDigs m
  | Int.negSucc m => '-' :: natDigs (m + 1)

mutual

/-- `json.dumps` with default separators `", "` and `": "`. -/
def dumpVal : JVal → List Char
  | .null => 'n' :: ['u', 'l', 'l']
  | .bool true => 't' :: ['r', 'u', 'e']
  | .bool false => 'f' :: ['a', 'l', 's', 'e']
  | .int n => dumpInt n
  | .str s => '"' :: escStr s ++ ['"']
  | .arr [] => ['[', ']']
  | .arr (x :: t) => '[' :: (dumpVal x ++ dumpMore t) ++ [']']
  | .obj [] => [lbrace, rbrace]
  | .obj (f :: t) => lbrace :: (dumpMember f ++ dumpMoreF t) ++ [rbrace]

/-- Remaining array items, each preceded by `", "`. -/
def dumpMore : List JVal → List Char
  | [] => []
  | y :: t => ',' :: ' ' :: dumpVal y ++ dumpMore t

/-- One object member `"key": value`. -/
def dumpMember : List Char × JVal → List Char
  | (k, v) => '"' :: escStr k ++ '"' :: ':' :: ' ' :: dumpVal v

/-- Remaining object members, each preceded by `", "`. -/
def dumpMoreF : List (List Char × JVal) → List Char
  | [] => []
  | f :: t => ',' :: ' ' :: dumpMember f ++ dumpMoreF t

end

mutual

/-- Fuel measure for the decoder: one unit per node and list cell. -/
def jsize : JVal → Nat
  | .null => 1
  | .bool _ => 1
  | .int _ => 1
  | .str _ => 1
  | .arr xs => 1 + jsizeL xs
  | .obj fs => 1 + jsizeF fs

def jsizeL : List JVal → Nat
  | [] => 0
  | x :: t => 1 + jsize x + jsizeL t

def jsizeF : List (List Char × JVal) → Nat
  | [] => 0
  | (_, v) :: t => 1 + jsize v + jsizeF t

end

/-- Skip JSON whitespace. -/
def skipWs (s : List Char) : List Char := s.dropWhile isJWs

/-- Value of one hex digit character (both cases accepted, as `json.loads`). -/
def hexVal (c : Char) : Option Nat :=
  if 48 ≤ c.toNat ∧ c.toNat ≤ 57 then some (c.toNat - 48)
  else if 97 ≤ c.toNat ∧ c.toNat ≤ 102 then some (c.toNat - 87)
  else if 65 ≤ c.toNat ∧ c.toNat ≤ 70 then some (c.toNat - 55)
  else none

/-- Value of a `\uXXXX` escape. -/
def hex4 (a b c d : Char) : Option Nat :=
  match hexVal a, hexVal b, hexVal c, hexVal d with
  | some va, some vb, some vc, some vd =>
      some (va * 4096 + vb * 256 + vc * 16 + vd)
  | _, _, _, _ => none

/-- Simple backslash escapes recognised by the JSON decoder. -/
def escMap (e : Char) : Option Char :=
  if e.toNat = 34 then some '"'
  else if e.toNat = 92 then some '\\'
  else if e.toNat = 47 then some '/'
  else if e.toNat = 98 then some (Char.ofNat 8)
  else if e.toNat = 102 then some (Char.ofNat 12)
  else if e.toNat = 110 then some '\n'
  else if e.toNat = 114 then some '\r'
  else if e.toNat = 116 then some '\t'
  else none

/-- Decode the `\u` escape payload: four hex digits, possibly followed by a
low-surrogate escape that combines into one scalar.  A lone surrogate, which
Lean's `Char` cannot carry, makes the decode fail. -/
def decodeU : List Char → Option (Char × List Char)
  | a :: b :: c :: d :: rest =>
    (match hex4 a b c d with
     | none => none
     | some n =>
       if n < 55296 ∨ 57343 < n then some (Char.ofNat n, rest)
       else if n ≤ 56319 then
         match rest with
         | e2 :: u2 :: a2 :: b2 :: c2 :: d2 :: rest2 =>
           if e2.toNat = 92 ∧ u2.toNat = 117 then
             match hex4 a2 b2 c2 d2 with
             | some m =>
               if 56320 ≤ m ∧ m ≤ 57343 then
                 some (Char.ofNat (65536 + (n - 55296) * 1024 + (m - 56320)),
                   rest2)
               else none
             | none => none
           else none
         | _ => none
       else none)
  | _ => none

/-- Decode one backslash escape (input begins after the backslash). -/
def decodeEsc : List Char → Option (Char × List Char)
  | [] => none
  | e :: rest =>
    if e.toNat = 117 then decodeU rest
    else
      match escMap e with
      | some ec => some (ec, rest)
      | none => none

theorem decodeU_length {l : List Char} {ec : Char} {r : List Char}
    (h : decodeU l = some (ec, r)) : r.length ≤ l.length := by
  unfold decodeU at h
  repeat' split at h
  all_goals simp_all
  all_goals omega

theorem decodeEsc_length {l : List Char} {ec : Char} {r : List Char}
    (h : decodeEsc l = some (ec, r)) : r.length ≤ l.length := by
  unfold decodeEsc at h
  repeat' split at h
  all_goals first
  | (have h2 := decodeU_length h
     simp only [List.length_cons]
     omega)
  | simp_all

/-- Decode a JSON string body after the opening quote; returns the decoded
characters and the input following the closing quote.  Mirrors `json.loads`
in strict mode (raw control characters are rejected). -/
def parseStr (input : List Char) : Option (List Char × List Char) :=
  match input with
  | [] => none
  | c :: rest =>
    if c.toNat = 34 then some ([], rest)
    else if c.toNat = 92 then
      match h : decodeEsc rest with
      | some (ec, rest2) =>
        match parseStr rest2 with
        | some (s, r) => some (ec :: s, r)
        | none => none
      | none => none
    else if c.toNat < 32 then none
    else
      match parseStr rest with
      | some (s, r) => some (c :: s, r)
      | none => none
termination_by input.length
decreasing_by
· have := decodeEsc_length h
  simp
  omega
· simp

/-- Decimal value of a digit string. -/
def digValue (ds : List Char) : Nat :=
  ds.foldl (fun a c => a * 10 + (c.toNat - 48)) 0

/-- Decode an integer literal (the only numbers `json.dumps` emits for the
client's requests; fractions and exponents are outside the model). -/
def parseNum : List Char → Option (JVal × List Char)
  | [] => none
  | c :: rest =>
    if c.toNat = 45 then
      if rest.takeWhile isDig = [] then none
      else some (.int (-(Int.ofNat (digValue (rest.takeWhile isDig)))),
        rest.dropWhile isDig)
    else
      if (c :: rest).takeWhile isDig = [] then none
      else some (.int (Int.ofNat (digValue ((c :: rest).takeWhile isDig))),
        (c :: rest).dropWhile isDig)

mutual

/-- Fuelled JSON value decoder (model of `json.loads`). -/
def parseVal : Nat → List Char → Option (JVal × List Char)
  | 0, _ => none
  | Nat.succ f, input =>
    match skipWs input with
    | [] => none
    | c :: rest =>
      if c.toNat = 123 then
        match skipWs rest with
        | c2 :: rest2 =>
          if c2.toNat = 125 then some (.obj [], rest2)
          else
            match parseMembers f rest with
            | some (fs, r) => some (.obj fs, r)
            | none => none
        | [] => none
      else if c.toNat = 91 then
        match skipWs rest with
        | c2 :: rest2 =>
          if c2.toNat = 93 then some (.arr [], rest2)
          else
            match parseItems f rest with
            | some (vs, r) => some (.arr vs, r)
            | none => none
        | [] => none
      else if c.toNat = 34 then
        match parseStr rest with
        | some (s, r) => some (.str s, r)
        | none => none
      else if c.toNat = 116 then
        if rest.take 3 = ['r', 'u', 'e'] then some (.bool true, rest.drop 3)
        else none
      else if c.toNat = 102 then
        if rest.take 4 = ['a', 'l', 's', 'e'] then
          some (.bool false, rest.drop 4)
        else none
      else if c.toNat = 110 then
        if rest.take 3 = ['u', 'l', 'l'] then some (.null, rest.drop 3)
        else none
      else if c.toNat = 45 ∨ isDig c then parseNum (c :: rest)
      else none

/-- Items of a non-empty array, up to and including the closing bracket. -/
def parseItems : Nat → List Char → Option (List JVal × List Char)
  | 0, _ => none
  | Nat.succ f, input =>
    match parseVal f input with
    | none => none
    | some (v, r) =>
      match skipWs r with
      | c :: r2 =>
        if c.toNat = 44 then
          match parseItems f r2 with
          | some (vs, r3) => some (v :: vs, r3)
          | none => none
        else if c.toNat = 93 then some ([v], r2)
        else none
      | [] => none

/-- Members of a non-empty object, up to and including the closing brace. -/
def parseMembers : Nat → List Char → Option (List (List Char × JVal) × List Char)
  | 0, _ => none
  | Nat.succ f, input =>
    match skipWs input with
    | c :: r =>
      if c.toNat = 34 then
        match parseStr r with
        | some (k, r2) =>
          match skipWs r2 with
          | c2 :: r3 =>
            if c2.toNat = 58 then
              match parseVal f r3 with
              | some (v, r4) =>
                match skipWs r4 with
                | c3 :: r5 =>
                  if c3.toNat = 44 then
                    match parseMembers f r5 with
                    | some (fs, r6) => some ((k, v) :: fs, r6)
                    | none => none
                  else if c3.toNat = 125 then some ([(k, v)], r5)
                  else none
                | [] => none
              | none => none
            else none
          | [] => none
        | none => none
      else none
    | [] => none

end

/-- Model of `json.loads`: decode one value, then require only whitespace
after it. -/
def loads (s : List Char) : Option JVal :=
  match parseVal (2 * s.length + 2) s with
  | some (v, rest) => if skipWs rest = [] then some v else none
  | none => none

theorem toNat_ofNat_valid (n : Nat) (h : n.isValidChar) :
    (Char.ofNat n).toNat = n := by
  unfold Char.ofNat
  rw [dif_pos h]
  rfl

theorem toNat_ofNat_lo (n : Nat) (h : n < 55296) : (Char.ofNat n).toNat = n :=
  toNat_ofNat_valid n (Or.inl h)

theorem char_eq_of_toNat (c : Char) (k : Nat) (h : c.toNat = k) :
    c = Char.ofNat k := by
  rw [← h, Char.ofNat_toNat]

theorem char_toNat_valid (c : Char) :
    c.toNat < 55296 ∨ (57343 < c.toNat ∧ c.toNat < 1114112) := c.valid

theorem hexVal_hexDig (d : Nat) (h : d < 16) : hexVal (hexDig d) = some d := by
  unfold hexVal hexDig
  by_cases h10 : d < 10
  · rw [if_pos h10, toNat_ofNat_lo _ (by omega), if_pos (by omega)]
    congr 1
    omega
  · rw [if_neg h10, toNat_ofNat_lo _ (by omega), if_neg (by omega),
      if_pos (by omega)]
    congr 1
    omega

theorem hex4_hex4Digs (n : Nat) (h : n < 65536) :
    hex4 (hexDig (n / 4096 % 16)) (hexDig (n / 256 % 16))
      (hexDig (n / 16 % 16)) (hexDig (n % 16)) = some n := by
  unfold hex4
  rw [hexVal_hexDig _ (by omega), hexVal_hexDig _ (by omega),
    hexVal_hexDig _ (by omega), hexVal_hexDig _ (by omega)]
  simp only []
  congr 1
  omega

theorem natDigs_spec (n : Nat) :
    natDigs n ≠ [] ∧ ∀ c ∈ natDigs n, 48 ≤ c.toNat ∧ c.toNat ≤ 57 := by
  induction n using natDigs.induct with
  | case1 n h =>
    rw [natDigs, if_pos h]
    refine ⟨by simp, ?_⟩
    intro c hc
    simp at hc
    subst hc
    unfold hexDig
    rw [if_pos (by omega), toNat_ofNat_lo _ (by omega)]
    omega
  | case2 n h ih =>
    rw [natDigs, if_neg h]
    refine ⟨by simp [ih.1], ?_⟩
    intro c hc
    simp at hc
    rcases hc with hc | hc
    · exact ih.2 c hc
    · subst hc
      unfold hexDig
      rw [if_pos (by omega), toNat_ofNat_lo _ (by omega)]
      omega

theorem digValue_append (l : List Char) (c : Char) :
    digValue (l ++ [c]) = digValue l * 10 + (c.toNat - 48) := by
  unfold digValue
  rw [List.foldl_append]
  rfl

theorem digValue_natDigs (n : Nat) : digValue (natDigs n) = n := by
  induction n using natDigs.induct with
  | case1 n h =>
    rw [natDigs, if_pos h]
    have ht : (hexDig n).toNat = 48 + n := by
      unfold hexDig
      rw [if_pos (by omega)]
      exact toNat_ofNat_lo _ (by omega)
    unfold digValue
    simp only [List.foldl_cons, List.foldl_nil, ht]
    omega
  | case2 n h ih =>
    rw [natDigs, if_neg h, digValue_append, ih]
    have ht : (hexDig (n % 10)).toNat = 48 + n % 10 := by
      unfold hexDig
      rw [if_pos (by omega)]
      exact toNat_ofNat_lo _ (by omega)
    rw [ht]
    omega

theorem takeWhile_all_append (p : Char → Bool) (l rest : List Char)
    (hall : ∀ c ∈ l, p c = true)
    (hrest : rest = [] ∨ ∃ c t, rest = c :: t ∧ p c = false) :
    (l ++ rest).takeWhile p = l ∧ (l ++ rest).dropWhile p = rest := by
  induction l with
  | nil =>
    simp only [List.nil_append]
    rcases hrest with h | ⟨c, t, h, hpc⟩
    · subst h; simp
    · subst h
      rw [List.takeWhile_cons, List.dropWhile_cons, hpc]
      simp
  | cons a l ih =>
    have hpa : p a = true := hall a (by simp)
    have ih2 := ih (fun c hc => hall c (by simp [hc]))
    simp only [List.cons_append, List.takeWhile_cons, List.dropWhile_cons, hpa]
    simp [ih2.1, ih2.2]

theorem escStr_cons (c : Char) (s : List Char) :
    escStr (c :: s) = escCh c ++ escStr s := rfl

theorem hex4Digs_cons (n : Nat) (tail : List Char) :
    hex4Digs n ++ tail =
      hexDig (n / 4096 % 16) :: hexDig (n / 256 % 16) :: hexDig (n / 16 % 16)
        :: hexDig (n % 16) :: tail := rfl

theorem decodeU_digs (n : Nat) (h : n < 65536) (hs : n < 55296 ∨ 57343 < n)
    (tail : List Char) :
    decodeU (hex4Digs n ++ tail) = some (Char.ofNat n, tail) := by
  rw [hex4Digs_cons, decodeU, hex4_hex4Digs n h]
  simp only []
  rw [if_pos hs]

theorem decodeU_pair (v : Nat) (h1 : 65536 ≤ v) (h2 : v < 1114112)
    (tail : List Char) :
    decodeU (hex4Digs (55296 + (v - 65536) / 1024) ++
      ('\\' :: 'u' :: (hex4Digs (56320 + (v - 65536) % 1024) ++ tail))) =
      some (Char.ofNat v, tail) := by
  rw [hex4Digs_cons (55296 + (v - 65536) / 1024)
    ('\\' :: 'u' :: (hex4Digs (56320 + (v - 65536) % 1024) ++ tail))]
  rw [decodeU, hex4_hex4Digs _ (by omega)]
  simp only []
  rw [if_neg (by omega), if_pos (by omega),
    hex4Digs_cons (56320 + (v - 65536) % 1024) tail]
  simp only []
  rw [if_pos (by constructor <;> decide), hex4_hex4Digs _ (by omega)]
  simp only []
  rw [if_pos (by constructor <;> omega)]
  rw [show 65536 + (55296 + (v - 65536) / 1024 - 55296) * 1024 +
    (56320 + (v - 65536) % 1024 - 56320) = v by omega]

theorem decodeEsc_u (rest : List Char) :
    decodeEsc ('u' :: rest) = decodeU rest := by
  rw [decodeEsc]
  simp

theorem parseStr_escStr (s rest : List Char) :
    parseStr (escStr s ++ '"' :: rest) = some (s, rest) := by
  induction s with
  | nil =>
    rw [show escStr [] = [] from rfl, List.nil_append, parseStr]
    simp
  | cons c s ih =>
    rw [escStr_cons, List.append_assoc]
    by_cases h34 : c.toNat = 34
    · have hc : c = '"' := by
        rw [char_eq_of_toNat c 34 h34]
      subst hc
      rw [show escCh '"' = ['\\', '"'] from rfl]
      rw [show (['\\', '"'] : List Char) ++ (escStr s ++ '"' :: rest) =
        '\\' :: '"' :: (escStr s ++ '"' :: rest) from rfl]
      rw [parseStr]
      simp [decodeEsc, escMap, ih]
    · by_cases h92 : c.toNat = 92
      · have hc : c = '\\' := by
          rw [char_eq_of_toNat c 92 h92]
        subst hc
        rw [show escCh '\\' = ['\\', '\\'] from rfl]
        rw [show (['\\', '\\'] : List Char) ++ (escStr s ++ '"' :: rest) =
          '\\' :: '\\' :: (escStr s ++ '"' :: rest) from rfl]
        rw [parseStr]
        simp [decodeEsc, escMap, ih]
      · by_cases h10 : c.toNat = 10
        · have hc : c = '\n' := by
            rw [char_eq_of_toNat c 10 h10]
          subst hc
          rw [show escCh '\n' = ['\\', 'n'] from rfl]
          rw [show (['\\', 'n'] : List Char) ++ (escStr s ++ '"' :: rest) =
            '\\' :: 'n' :: (escStr s ++ '"' :: rest) from rfl]
          rw [parseStr]
          simp [decodeEsc, escMap, ih]
        · by_cases h13 : c.toNat = 13
          · have hc : c = '\r' := by
              rw [char_eq_of_toNat c 13 h13]
            subst hc
            rw [show escCh '\r' = ['\\', 'r'] from rfl]
            rw [show (['\\', 'r'] : List Char) ++ (escStr s ++ '"' :: rest) =
              '\\' :: 'r' :: (escStr s ++ '"' :: rest) from rfl]
            rw [parseStr]
            simp [decodeEsc, escMap, ih]
          · by_cases h9 : c.toNat = 9
            · have hc : c = '\t' := by
                rw [char_eq_of_toNat c 9 h9]
              subst hc
              rw [show escCh '\t' = ['\\', 't'] from rfl]
              rw [show (['\\', 't'] : List Char) ++ (escStr s ++ '"' :: rest) =
                '\\' :: 't' :: (escStr s ++ '"' :: rest) from rfl]
              rw [parseStr]
              simp [decodeEsc, escMap, ih]
            · by_cases h8 : c.toNat = 8
              · have hc : c = Char.ofNat 8 := char_eq_of_toNat c 8 h8
                subst hc
                rw [show escCh (Char.ofNat 8) = ['\\', 'b'] from rfl]
                rw [show (['\\', 'b'] : List Char) ++ (escStr s ++ '"' :: rest)
                  = '\\' :: 'b' :: (escStr s ++ '"' :: rest) from rfl]
                rw [parseStr]
                simp [decodeEsc, escMap, ih]
              · by_cases h12 : c.toNat = 12
                · have hc : c = Char.ofNat 12 := char_eq_of_toNat c 12 h12
                  subst hc
                  rw [show escCh (Char.ofNat 12) = ['\\', 'f'] from rfl]
                  rw [show (['\\', 'f'] : List Char) ++
                    (escStr s ++ '"' :: rest)
                    = '\\' :: 'f' :: (escStr s ++ '"' :: rest) from rfl]
                  rw [parseStr]
                  simp [decodeEsc, escMap, ih]
                · by_cases hlo : c.toNat < 32
                  · have he : escCh c = '\\' :: 'u' :: hex4Digs c.toNat := by
                      unfold escCh
                      rw [if_neg h34, if_neg h92, if_neg h10, if_neg h13,
                        if_neg h9, if_neg h8, if_neg h12, if_pos hlo]
                    rw [he]
                    rw [show ('\\' :: 'u' :: hex4Digs c.toNat) ++
                      (escStr s ++ '"' :: rest) =
                      '\\' :: 'u' :: (hex4Digs c.toNat ++
                        (escStr s ++ '"' :: rest)) by simp]
                    rw [parseStr]
                    rw [if_neg (by decide), if_pos (by decide)]
                    rw [decodeEsc_u,
                      decodeU_digs c.toNat (by omega) (by omega)]
                    simp only []
                    rw [ih, Char.ofNat_toNat]
                  · by_cases hpl : c.toNat ≤ 126
                    · have he : escCh c = [c] := by
                        unfold escCh
                        rw [if_neg h34, if_neg h92, if_neg h10, if_neg h13,
                          if_neg h9, if_neg h8, if_neg h12, if_neg hlo,
                          if_pos hpl]
                      rw [he, List.singleton_append, parseStr]
                      rw [if_neg h34, if_neg h92, if_neg (by omega)]
                      rw [ih]
                    · by_cases hbmp : c.toNat < 65536
                      · have he : escCh c = '\\' :: 'u' :: hex4Digs c.toNat
                            := by
                          unfold escCh
                          rw [if_neg h34, if_neg h92, if_neg h10, if_neg h13,
                            if_neg h9, if_neg h8, if_neg h12, if_neg hlo,
                            if_neg hpl, if_pos hbmp]
                        rw [he]
                        rw [show ('\\' :: 'u' :: hex4Digs c.toNat) ++
                          (escStr s ++ '"' :: rest) =
                          '\\' :: 'u' :: (hex4Digs c.toNat ++
                            (escStr s ++ '"' :: rest)) by simp]
                        rw [parseStr]
                        rw [if_neg (by decide), if_pos (by decide)]
                        rw [decodeEsc_u,
                          decodeU_digs c.toNat (by omega)
                            (by rcases char_toNat_valid c with h | h <;> omega)]
                        simp only []
                        rw [ih, Char.ofNat_toNat]
                      · have hv := char_toNat_valid c
                        have he : escCh c =
                            '\\' :: 'u' ::
                              hex4Digs (55296 + (c.toNat - 65536) / 1024) ++
                            '\\' :: 'u' ::
                              hex4Digs (56320 + (c.toNat - 65536) % 1024) := by
                          unfold escCh
                          rw [if_neg h34, if_neg h92, if_neg h10, if_neg h13,
                            if_neg h9, if_neg h8, if_neg h12, if_neg hlo,
                            if_neg hpl, if_neg hbmp]
                        rw [he]
                        simp only [List.cons_append, List.append_assoc]
                        rw [parseStr]
                        rw [if_neg (by decide), if_pos (by decide)]
                        rw [decodeEsc_u]
                        rw [decodeU_pair c.toNat (by omega) (by omega)]
                        simp only []
                        rw [ih, Char.ofNat_toNat]

/-- The input following a serialized number never starts with another digit
(it is empty or starts with a separator or closing bracket). -/
def numB : List Char → Prop
  | [] => True
  | c :: _ => isDig c = false

theorem natDigs_split (n : Nat) (rest : List Char) (h : numB rest) :
    (natDigs n ++ rest).takeWhile isDig = natDigs n ∧
    (natDigs n ++ rest).dropWhile isDig = rest := by
  apply takeWhile_all_append
  · intro c hc
    have h2 := (natDigs_spec n).2 c hc
    unfold isDig
    simp only [Bool.and_eq_true, decide_eq_true_eq]
    omega
  · match rest with
    | [] => exact Or.inl rfl
    | c :: t => exact Or.inr ⟨c, t, rfl, h⟩

theorem parseNum_dumpInt (n : Int) (rest : List Char) (h : numB rest) :
    parseNum (dumpInt n ++ rest) = some (.int n, rest) := by
  match n with
  | Int.ofNat m =>
    have hsplit := natDigs_split m rest h
    cases hd : natDigs m with
    | nil => exact absurd hd (natDigs_spec m).1
    | cons c t =>
      have hcd := (natDigs_spec m).2 c (by rw [hd]; simp)
      rw [hd] at hsplit
      rw [show dumpInt (Int.ofNat m) = natDigs m from rfl, hd,
        List.cons_append, parseNum]
      rw [if_neg (by omega)]
      rw [← List.cons_append, hsplit.1, hsplit.2]
      rw [if_neg (by simp)]
      have hv := digValue_natDigs m
      rw [hd] at hv
      rw [hv]
  | Int.negSucc m =>
    have hsplit := natDigs_split (m + 1) rest h
    rw [show dumpInt (Int.negSucc m) = '-' :: natDigs (m + 1) from rfl,
      List.cons_append, parseNum]
    rw [if_pos (by decide)]
    rw [hsplit.1, hsplit.2]
    rw [if_neg (natDigs_spec (m + 1)).1, digValue_natDigs]
    rw [show -(Int.ofNat (m + 1)) = Int.negSucc m by
      rw [Int.negSucc_eq]; rfl]

theorem skipWs_cons (c : Char) (l : List Char) (h : isJWs c = false) :
    skipWs (c :: l) = c :: l := by
  unfold skipWs
  rw [List.dropWhile_cons, h]
  simp

theorem skipWs_space (l : List Char) : skipWs (' ' :: l) = skipWs l := by
  unfold skipWs
  rw [List.dropWhile_cons]
  simp [isJWs]

theorem isJWs_false_of_ge (c : Char) (h : 34 ≤ c.toNat) : isJWs c = false := by
  unfold isJWs
  simp only [Bool.or_eq_false_iff, decide_eq_false_iff_not]
  omega

/-- Every serialized value starts with a non-whitespace character that is not
a closing bracket, closing brace or comma. -/
theorem dumpVal_shape (v : JVal) :
    ∃ c t, dumpVal v = c :: t ∧ 34 ≤ c.toNat ∧ c.toNat ≤ 123 ∧
      c.toNat ≠ 93 ∧ c.toNat ≠ 125 ∧ c.toNat ≠ 44 := by
  match v with
  | .null => exact ⟨'n', _, rfl, by decide, by decide, by decide, by decide,
      by decide⟩
  | .bool true => exact ⟨'t', _, rfl, by decide, by decide, by decide,
      by decide, by decide⟩
  | .bool false => exact ⟨'f', _, rfl, by decide, by decide, by decide,
      by decide, by decide⟩
  | .int (Int.ofNat m) =>
    cases hd : natDigs m with
    | nil => exact absurd hd (natDigs_spec m).1
    | cons c t =>
      have hcd := (natDigs_spec m).2 c (by rw [hd]; simp)
      exact ⟨c, t, by rw [show dumpVal (.int (Int.ofNat m)) = natDigs m
        from rfl, hd], by omega, by omega, by omega, by omega, by omega⟩
  | .int (Int.negSucc m) => exact ⟨'-', _, rfl, by decide, by decide,
      by decide, by decide, by decide⟩
  | .str s => exact ⟨'"', _, rfl, by decide, by decide, by decide, by decide,
      by decide⟩
  | .arr [] => exact ⟨'[', _, rfl, by decide, by decide, by decide, by decide,
      by decide⟩
  | .arr (x :: t) => exact ⟨'[', _, rfl, by decide, by decide, by decide,
      by decide, by decide⟩
  | .obj [] => exact ⟨lbrace, _, rfl, by decide, by decide, by decide,
      by decide, by decide⟩
  | .obj (f :: t) => exact ⟨lbrace, _, rfl, by decide, by decide, by decide,
      by decide, by decide⟩

theorem skipWs_dumpVal (v : JVal) (X : List Char) :
    skipWs (dumpVal v ++ X) = dumpVal v ++ X := by
  obtain ⟨c, t, hd, hge, _⟩ := dumpVal_shape v
  rw [hd, List.cons_append, skipWs_cons _ _ (isJWs_false_of_ge c hge)]

theorem take3_cons (a b c : Char) (l : List Char) :
    List.take 3 (a :: b :: c :: l) = [a, b, c] := rfl

theorem drop3_cons (a b c : Char) (l : List Char) :
    List.drop 3 (a :: b :: c :: l) = l := rfl

theorem take4_cons (a b c d : Char) (l : List Char) :
    List.take 4 (a :: b :: c :: d :: l) = [a, b, c, d] := rfl

theorem drop4_cons (a b c d : Char) (l : List Char) :
    List.drop 4 (a :: b :: c :: d :: l) = l := rfl
theorem jsize_pos (v : JVal) : 1 ≤ jsize v := by
  cases v <;> simp [jsize]

theorem skipWs_dumpMember (k : List Char) (v : JVal) (X : List Char) :
    skipWs (dumpMember (k, v) ++ X) = dumpMember (k, v) ++ X := by
  have hm : dumpMember (k, v) ++ X =
      '"' :: (escStr k ++ ('"' :: ':' :: ' ' :: dumpVal v ++ X)) := by
    simp [dumpMember]
  rw [hm, skipWs_cons _ _ (by decide)]

theorem parse_dump_main (F : Nat) :
    (∀ v input rest, jsize v ≤ F → numB rest →
      skipWs input = dumpVal v ++ rest → parseVal F input = some (v, rest)) ∧
    (∀ x t input rest, jsizeL (x :: t) ≤ F →
      skipWs input = dumpVal x ++ (dumpMore t ++ (']' :: rest)) →
      parseItems F input = some (x :: t, rest)) ∧
    (∀ k v t input rest, jsizeF ((k, v) :: t) ≤ F →
      skipWs input = dumpMember (k, v) ++ (dumpMoreF t ++ (rbrace :: rest)) →
      parseMembers F input = some ((k, v) :: t, rest)) := by
  induction F using Nat.strong_induction_on with
  | _ F IH =>
  match F with
  | 0 =>
    refine ⟨?_, ?_, ?_⟩
    · intro v input rest hsz _ _
      exact absurd hsz (by have := jsize_pos v; omega)
    · intro x t input rest hsz _
      exact absurd hsz (by unfold jsizeL; omega)
    · intro k v t input rest hsz _
      exact absurd hsz (by unfold jsizeF; omega)
  | Nat.succ G =>
    obtain ⟨IH1, IH2, IH3⟩ := IH G (by omega)
    refine ⟨?_, ?_, ?_⟩
    · intro v input rest hsz hnb hin
      match v with
      | .null =>
        simp only [dumpVal, List.cons_append, List.nil_append,
          List.append_assoc, List.singleton_append] at hin
        rw [parseVal, hin]
        simp only []
        rw [if_neg (by decide), if_neg (by decide), if_neg (by decide),
          if_neg (by decide), if_neg (by decide), if_pos (by decide)]
        rw [take3_cons, if_pos (by decide)]
        try rw [drop3_cons]
      | .bool true =>
        simp only [dumpVal, List.cons_append, List.nil_append,
          List.append_assoc, List.singleton_append] at hin
        rw [parseVal, hin]
        simp only []
        rw [if_neg (by decide), if_neg (by decide), if_neg (by decide),
          if_pos (by decide)]
        rw [take3_cons, if_pos (by decide)]
        try rw [drop3_cons]
      | .bool false =>
        simp only [dumpVal, List.cons_append, List.nil_append,
          List.append_assoc, List.singleton_append] at hin
        rw [parseVal, hin]
        simp only []
        rw [if_neg (by decide), if_neg (by decide), if_neg (by decide),
          if_neg (by decide), if_pos (by decide)]
        rw [take4_cons, if_pos (by decide)]
        try rw [drop4_cons]
      | .str s =>
        simp only [dumpVal, List.cons_append, List.nil_append,
          List.append_assoc, List.singleton_append] at hin
        rw [parseVal, hin]
        simp only []
        rw [if_neg (by decide), if_neg (by decide), if_pos (by decide)]
        rw [parseStr_escStr]
        try simp
      | .int (Int.ofNat m) =>
        rw [show dumpVal (.int (Int.ofNat m)) = natDigs m from rfl] at hin
        cases hd : natDigs m with
        | nil => exact absurd hd (natDigs_spec m).1
        | cons c t =>
          have hcd := (natDigs_spec m).2 c (by rw [hd]; simp)
          rw [hd, List.cons_append] at hin
          rw [parseVal, hin]
          simp only []
          rw [if_neg (by omega), if_neg (by omega), if_neg (by omega),
            if_neg (by omega), if_neg (by omega), if_neg (by omega),
            if_pos (Or.inr (by unfold isDig; simp; omega))]
          rw [← List.cons_append, ← hd]
          exact parseNum_dumpInt (Int.ofNat m) rest hnb
      | .int (Int.negSucc m) =>
        rw [show dumpVal (.int (Int.negSucc m)) = '-' :: natDigs (m + 1)
          from rfl, List.cons_append] at hin
        rw [parseVal, hin]
        simp only []
        rw [if_neg (by decide), if_neg (by decide), if_neg (by decide),
          if_neg (by decide), if_neg (by decide), if_neg (by decide),
          if_pos (Or.inl (by decide))]
        rw [← List.cons_append]
        exact parseNum_dumpInt (Int.negSucc m) rest hnb
      | .arr [] =>
        simp only [dumpVal, List.cons_append, List.nil_append,
          List.append_assoc, List.singleton_append] at hin
        rw [parseVal, hin]
        simp only []
        rw [if_neg (by decide), if_pos (by decide)]
        rw [skipWs_cons _ _ (by decide)]
        simp only []
        rw [if_pos (by decide)]
      | .arr (x :: t) =>
        simp only [dumpVal, List.cons_append, List.nil_append,
          List.append_assoc, List.singleton_append] at hin
        rw [parseVal, hin]
        simp only []
        rw [if_neg (by decide), if_pos (by decide)]
        rw [skipWs_dumpVal]
        obtain ⟨c, t2, hd, hge, hle, h93, h125, h44⟩ := dumpVal_shape x
        rw [hd, List.cons_append]
        simp only []
        rw [if_neg h93]
        have hsz2 : jsizeL (x :: t) ≤ G := by
          simp only [jsize] at hsz
          omega
        have h2 := IH2 x t ((c :: t2) ++ (dumpMore t ++ (']' :: rest))) rest
          hsz2 (by rw [← hd]; exact skipWs_dumpVal x _)
        rw [List.cons_append] at h2
        rw [h2]
      | .obj [] =>
        simp only [dumpVal, List.cons_append, List.nil_append,
          List.append_assoc, List.singleton_append] at hin
        rw [parseVal, hin]
        simp only []
        rw [if_pos (by decide)]
        rw [skipWs_cons _ _ (by decide)]
        simp only []
        rw [if_pos (by decide)]
      | .obj ((k, v2) :: t) =>
        simp only [dumpVal, List.cons_append, List.nil_append,
          List.append_assoc, List.singleton_append] at hin
        rw [parseVal, hin]
        simp only []
        rw [if_pos (by decide)]
        rw [skipWs_dumpMember]
        have hm : dumpMember (k, v2) =
            '"' :: (escStr k ++ ('"' :: ':' :: ' ' :: dumpVal v2)) := by
          simp [dumpMember]
        rw [hm, List.cons_append]
        simp only []
        rw [if_neg (by decide)]
        have hsz3 : jsizeF ((k, v2) :: t) ≤ G := by
          simp only [jsize] at hsz
          omega
        have h3 := IH3 k v2 t
          (('"' :: (escStr k ++ ('"' :: ':' :: ' ' :: dumpVal v2))) ++
            (dumpMoreF t ++ (rbrace :: rest))) rest hsz3
          (by rw [← hm]; exact skipWs_dumpMember k v2 _)
        rw [List.cons_append] at h3
        rw [h3]
    · intro x t input rest hsz hin
      rw [parseItems]
      have hb : numB (dumpMore t ++ (']' :: rest)) := by
        cases t with
        | nil => exact (by decide : isDig ']' = false)
        | cons y t2 => exact (by decide : isDig ',' = false)
      have h1 := IH1 x input (dumpMore t ++ (']' :: rest))
        (by simp only [jsizeL] at hsz; omega) hb hin
      rw [h1]
      simp only []
      cases t with
      | nil =>
        simp only [dumpMore, List.nil_append]
        rw [skipWs_cons _ _ (by decide)]
        simp only []
        rw [if_neg (by decide), if_pos (by decide)]
      | cons y t2 =>
        simp only [dumpMore, List.cons_append, List.append_assoc]
        rw [skipWs_cons _ _ (by decide)]
        simp only []
        rw [if_pos (by decide)]
        have h2 := IH2 y t2
          (' ' :: (dumpVal y ++ (dumpMore t2 ++ (']' :: rest)))) rest
          (by simp only [jsizeL] at hsz ⊢; omega)
          (by rw [skipWs_space]; exact skipWs_dumpVal y _)
        rw [h2]
    · intro k v t input rest hsz hin
      rw [show dumpMember (k, v) ++ (dumpMoreF t ++ (rbrace :: rest)) =
        '"' :: (escStr k ++ ('"' :: (':' :: (' ' :: (dumpVal v ++
          (dumpMoreF t ++ (rbrace :: rest))))))) by simp [dumpMember]] at hin
      rw [parseMembers, hin]
      simp only []
      rw [if_pos (by decide)]
      rw [parseStr_escStr]
      simp only []
      rw [skipWs_cons _ _ (by decide)]
      simp only []
      rw [if_pos (by decide)]
      have hb : numB (dumpMoreF t ++ (rbrace :: rest)) := by
        cases t with
        | nil => exact (by decide : isDig rbrace = false)
        | cons f2 t2 => exact (by decide : isDig ',' = false)
      have h1 := IH1 v
        (' ' :: (dumpVal v ++ (dumpMoreF t ++ (rbrace :: rest))))
        (dumpMoreF t ++ (rbrace :: rest))
        (by simp only [jsizeF] at hsz; omega) hb
        (by rw [skipWs_space]; exact skipWs_dumpVal v _)
      rw [h1]
      simp only []
      cases t with
      | nil =>
        simp only [dumpMoreF, List.nil_append]
        rw [skipWs_cons _ _ (by decide)]
        simp only []
        rw [if_neg (by decide), if_pos (by decide)]
      | cons f2 t2 =>
        obtain ⟨k2, v2⟩ := f2
        simp only [dumpMoreF, List.cons_append, List.append_assoc]
        rw [skipWs_cons _ _ (by decide)]
        simp only []
        rw [if_pos (by decide)]
        have h3 := IH3 k2 v2 t2
          (' ' :: (dumpMember (k2, v2) ++ (dumpMoreF t2 ++ (rbrace :: rest))))
          rest
          (by simp only [jsizeF] at hsz ⊢; omega)
          (by rw [skipWs_space]; exact skipWs_dumpMember k2 v2 _)
        rw [h3]

theorem dumpInt_ne_nil (n : Int) : (dumpInt n).length ≥ 1 := by
  match n with
  | Int.ofNat m =>
    cases hd : natDigs m with
    | nil => exact absurd hd (natDigs_spec m).1
    | cons c t =>
      rw [show dumpInt (Int.ofNat m) = natDigs m from rfl, hd]
      simp
  | Int.negSucc m =>
    rw [show dumpInt (Int.negSucc m) = '-' :: natDigs (m + 1) from rfl]
    simp

theorem jsize_dump_bound (N : Nat) :
    (∀ v, jsize v ≤ N → jsize v ≤ 2 * (dumpVal v).length) ∧
    (∀ t, jsizeL t ≤ N → jsizeL t ≤ 2 * (dumpMore t).length + 1) ∧
    (∀ t, jsizeF t ≤ N → jsizeF t ≤ 2 * (dumpMoreF t).length + 1) := by
  induction N using Nat.strong_induction_on with
  | _ N IH =>
  refine ⟨?_, ?_, ?_⟩
  · intro v hv
    match v with
    | .null => simp [jsize, dumpVal]
    | .bool true => simp [jsize, dumpVal]
    | .bool false => simp [jsize, dumpVal]
    | .int n =>
      have := dumpInt_ne_nil n
      simp only [jsize, dumpVal]
      omega
    | .str s =>
      simp only [jsize, dumpVal, List.length_cons, List.length_append]
      omega
    | .arr [] => simp [jsize, jsizeL, dumpVal]
    | .obj [] => simp [jsize, jsizeF, dumpVal]
    | .obj ((k, v2) :: t) =>
      have hp := jsize_pos v2
      have hszN : jsize (JVal.obj ((k, v2) :: t)) = 2 + jsize v2 + jsizeF t
          := by
        simp only [jsize, jsizeF]
        omega
      have hN1 : 1 ≤ N := by omega
      have h1 := (IH (N - 1) (by omega)).1 v2 (by rw [hszN] at hv; omega)
      have h2 := (IH (N - 1) (by omega)).2.2 t (by rw [hszN] at hv; omega)
      simp only [jsize, jsizeF, dumpVal, dumpMember, List.length_cons,
        List.length_append]
      omega
    | .arr (x :: t) =>
      have hp := jsize_pos x
      have hszN : jsize (JVal.arr (x :: t)) = 2 + jsize x + jsizeL t := by
        simp only [jsize, jsizeL]
        omega
      have hN1 : 1 ≤ N := by omega
      have h1 := (IH (N - 1) (by omega)).1 x (by rw [hszN] at hv; omega)
      have h2 := (IH (N - 1) (by omega)).2.1 t (by rw [hszN] at hv; omega)
      simp only [jsize, jsizeL, dumpVal, List.length_cons, List.length_append]
      omega
  · intro t ht
    match t with
    | [] => simp [jsizeL, dumpMore]
    | y :: t2 =>
      have hp := jsize_pos y
      have hN1 : 1 ≤ N := by
        simp only [jsizeL] at ht
        omega
      have h1 := (IH (N - 1) (by omega)).1 y
        (by simp only [jsizeL] at ht; omega)
      have h2 := (IH (N - 1) (by omega)).2.1 t2
        (by simp only [jsizeL] at ht; omega)
      simp only [jsizeL, dumpMore, List.length_cons, List.length_append]
      omega
  · intro t ht
    match t with
    | [] => simp [jsizeF, dumpMoreF]
    | (k, v) :: t2 =>
      have hp := jsize_pos v
      have hN1 : 1 ≤ N := by
        simp only [jsizeF] at ht
        omega
      have h1 := (IH (N - 1) (by omega)).1 v
        (by simp only [jsizeF] at ht; omega)
      have h2 := (IH (N - 1) (by omega)).2.2 t2
        (by simp only [jsizeF] at ht; omega)
      simp only [jsizeF, dumpMoreF, dumpMember, List.length_cons,
        List.length_append]
      omega

/-- A tail that follows a whole serialized value is never absorbed by the
decoder. -/
theorem parseVal_dump (v : JVal) (rest : List Char) (hnb : numB rest)
    (F : Nat) (hF : jsize v ≤ F) :
    parseVal F (dumpVal v ++ rest) = some (v, rest) :=
  (parse_dump_main F).1 v _ rest hF hnb (skipWs_dumpVal v rest)

/-- Decoding a serialized value recovers it exactly. -/
theorem loads_dumpVal (v : JVal) : loads (dumpVal v) = some v := by
  unfold loads
  have hb : jsize v ≤ 2 * (dumpVal v).length + 2 := by
    have := (jsize_dump_bound (jsize v)).1 v (le_refl _)
    omega
  have hsk : skipWs (dumpVal v) = dumpVal v ++ [] := by
    rw [List.append_nil]
    have h2 := skipWs_dumpVal v []
    rwa [List.append_nil] at h2
  have h2 := (parse_dump_main (2 * (dumpVal v).length + 2)).1 v (dumpVal v) []
    hb trivial hsk
  rw [h2]
  simp [skipWs]

/-! ## Client model (`MCPTestClient` from scripts/test-mcp-client.py) -/

/-- The `params` entry appended by `send_request`: present exactly when the
Python condition `if params:` is truthy, i.e. when the mapping is neither
`None` nor empty. -/
def paramsTail : Option (List (List Char × JVal)) → List (List Char × JVal)
  | none => []
  | some [] => []
  | some (f :: t) => [(chars "params", .obj (f :: t))]

/-- The request dict built by `send_request` (insertion order preserved:
`jsonrpc`, `id`, `method`, then `params` when truthy). -/
def buildRequest (method : List Char) (params : Option (List (List Char × JVal)))
    (request_id : Int) : JVal :=
  .obj ((chars "jsonrpc", .str (chars "2.0")) ::
        (chars "id", .int request_id) ::
        (chars "method", .str method) :: paramsTail params)

/-- The line written to the child's stdin: `json.dumps(request) + "\n"`. -/
def requestLine (method : List Char)
    (params : Option (List (List Char × JVal))) (request_id : Int) :
    List Char :=
  dumpVal (buildRequest method params request_id) ++ ['\n']

/-- First-match association lookup, as Python dict key access. -/
def lookupField : List (List Char × JVal) → List Char → Option JVal
  | [], _ => none
  | (k, v) :: t, key => if k = key then some v else lookupField t key

/-- Dict member access on a JSON value (objects only). -/
def getField : JVal → List Char → Option JVal
  | .obj fs, key => lookupField fs key
  | _, _ => none

/-- The child process handle as `subprocess.Popen` exposes it to this
script: only the cached `returncode` is observable. -/
structure Proc where
  returncode : Option Int
deriving Repr

/-- `Popen.terminate` / `send_signal`: a no-op once the process has been
reaped; the signal itself changes nothing the script can observe before
`wait`. -/
def terminate (p : Proc) : Proc := p

/-- `Popen.wait`: returns the cached code, else reaps the terminated child
(exit code -15 after SIGTERM). -/
def pwait (p : Proc) : Proc := { returncode := some (p.returncode.getD (-15)) }

/-- `MCPTestClient.stop_server`: `if self.process: terminate(); wait()` and
print a message.  Returns the new `self.process` and whether the stop
message was printed.  `self.process` is never reset to `None`. -/
def stop_server : Option Proc → Option Proc × Bool
  | none => (none, false)
  | some p => (some (pwait (terminate p)), true)

/-- Diagnostics `send_request` can print. -/
inductive ClientMsg where
  | serverNotStarted
  | noResponse
  | errorSending
deriving Repr, DecidableEq

/-- Everything observable about one `send_request` call. -/
structure SendOutcome where
  ret : Option JVal
  wrote : List (List Char)
  msg : Option ClientMsg
  processAfter : Option Proc
deriving Repr

/-- `MCPTestClient.send_request`.  The transport behaviour is supplied as
`writeOk` (whether writing to the child's stdin raises) and `readLine`
(what `stdout.readline()` returns; `[]` models the empty string returned
at end of stream). -/
def send_request (process : Option Proc) (writeOk : Bool)
    (readLine : List Char) (method : List Char)
    (params : Option (List (List Char × JVal))) (request_id : Int) :
    SendOutcome :=
  match process with
  | none => ⟨none, [], some .serverNotStarted, none⟩
  | some p =>
    if writeOk = false then ⟨none, [], some .errorSending, some p⟩
    else if readLine = [] then
      ⟨none, [requestLine method params request_id], some .noResponse, some p⟩
    else
      match loads (pyStrip readLine) with
      | some v =>
        ⟨some v, [requestLine method params request_id], none, some p⟩
      | none =>
        ⟨none, [requestLine method params request_id], some .errorSending,
          some p⟩

theorem pyStrip_wrap (mid : List Char) :
    pyStrip (lbrace :: ((mid ++ [rbrace]) ++ ['\n'])) =
      lbrace :: (mid ++ [rbrace]) := by
  unfold pyStrip
  rw [List.dropWhile_cons, show isPyWs lbrace = false from by decide]
  rw [if_neg (by decide)]
  rw [show (lbrace :: ((mid ++ [rbrace]) ++ ['\n'])).reverse =
    '\n' :: (rbrace :: (mid.reverse ++ [lbrace])) by simp]
  rw [List.dropWhile_cons, show isPyWs '\n' = true from by decide]
  rw [if_pos rfl]
  rw [List.dropWhile_cons, show isPyWs rbrace = false from by decide]
  rw [if_neg (by decide)]
  rw [show (rbrace :: (mid.reverse ++ [lbrace])).reverse =
    lbrace :: (mid ++ [rbrace]) by simp]

theorem loads_requestLine (method : List Char)
    (params : Option (List (List Char × JVal))) (request_id : Int) :
    loads (pyStrip (requestLine method params request_id)) =
      some (buildRequest method params request_id) := by
  have hd : dumpVal (buildRequest method params request_id) =
      (lbrace :: (dumpMember (chars "jsonrpc", .str (chars "2.0")) ++
        dumpMoreF ((chars "id", .int request_id) ::
          (chars "method", .str method) :: paramsTail params))) ++ [rbrace]
      := rfl
  have heq : requestLine method params request_id =
      lbrace :: (((dumpMember (chars "jsonrpc", .str (chars "2.0")) ++
        dumpMoreF ((chars "id", .int request_id) ::
          (chars "method", .str method) :: paramsTail params)) ++ [rbrace]) ++
        ['\n']) := by
    unfold requestLine
    rw [hd]
    simp
  have heq2 : dumpVal (buildRequest method params request_id) =
      lbrace :: ((dumpMember (chars "jsonrpc", .str (chars "2.0")) ++
        dumpMoreF ((chars "id", .int request_id) ::
          (chars "method", .str method) :: paramsTail params)) ++ [rbrace])
      := by
    rw [hd]
    simp
  rw [heq, pyStrip_wrap, ← heq2, loads_dumpVal]

/-! ## Config loader (`load_env_file`) -/

/-- `os.environ` as the script sees it: a total map from variable names to
optional values. -/
def EnvMap : Type := List Char → Option (List Char)

/-- `os.environ[key] = value`. -/
def envSet (env : EnvMap) (k v : List Char) : EnvMap :=
  fun q => if q = k then some v else env q

/-- `line.partition('=')` minus the separator: text before the first `=`
and text after it. -/
def partitionEq (s : List Char) : List Char × List Char :=
  (s.takeWhile (fun c => c.toNat ≠ 61),
   (s.dropWhile (fun c => c.toNat ≠ 61)).drop 1)

/-- Strip one layer of matching surrounding quotes (double first, then
single), as the loader does with `value[1:-1]`. -/
def unquote (v : List Char) : List Char :=
  if v.head? = some '"' ∧ v.getLast? = some '"' then (v.drop 1).dropLast
  else if v.head? = some (Char.ofNat 39) ∧ v.getLast? = some (Char.ofNat 39)
    then (v.drop 1).dropLast
  else v

/-- The key a well-formed line binds: text before the first `=`, stripped. -/
def lineKey (line : List Char) : List Char :=
  pyStrip (partitionEq (pyStrip line)).1

/-- The value a well-formed line binds: text after the first `=`, whitespace
trimmed, one layer of matching quotes stripped. -/
def lineVal (line : List Char) : List Char :=
  unquote (pyStrip (partitionEq (pyStrip line)).2)

/-- A line the loader does not skip: non-blank after stripping, not a
comment, contains `=`. -/
def wellFormedLine (line : List Char) : Prop :=
  pyStrip line ≠ [] ∧ (pyStrip line).head? ≠ some '#' ∧ '=' ∈ pyStrip line

instance (line : List Char) : Decidable (wellFormedLine line) := by
  unfold wellFormedLine
  infer_instance

/-- One iteration of the loader's line loop: strip the line; skip blank
lines, comments and lines without `=`; otherwise split at the first `=`,
strip key and value, unquote the value, and set the variable only if it is
not already in the environment. -/
def processLine (env : EnvMap) (line : List Char) : EnvMap :=
  if wellFormedLine line then
    if (env (lineKey line)).isNone then
      envSet env (lineKey line) (lineVal line)
    else env
  else env

/-- `load_env_file`: absent file changes nothing; otherwise fold the line
loop over the file's lines. -/
def load_env_file (env : EnvMap) (fileLines : Option (List (List Char))) :
    EnvMap :=
  match fileLines with
  | none => env
  | some lines => lines.foldl processLine env

theorem processLine_preserve (env : EnvMap) (line k v : List Char)
    (h : env k = some v) : processLine env line k = some v := by
  unfold processLine
  by_cases hwf : wellFormedLine line
  · rw [if_pos hwf]
    by_cases hn : (env (lineKey line)).isNone
    · rw [if_pos hn]
      unfold envSet
      by_cases hq : k = lineKey line
      · rw [hq] at h
        rw [h] at hn
        simp at hn
      · rw [if_neg hq]
        exact h
    · rw [if_neg hn]
      exact h
  · rw [if_neg hwf]
    exact h

theorem foldl_preserve (env : EnvMap) (lines : List (List Char))
    (k v : List Char) (h : env k = some v) :
    lines.foldl processLine env k = some v := by
  induction lines generalizing env with
  | nil => exact h
  | cons l t ih =>
    rw [List.foldl_cons]
    exact ih _ (processLine_preserve env l k v h)

theorem processLine_sets (env : EnvMap) (line : List Char)
    (hwf : wellFormedLine line) (hnone : env (lineKey line) = none) :
    processLine env line (lineKey line) = some (lineVal line) := by
  unfold processLine
  rw [if_pos hwf, if_pos (by rw [hnone]; rfl)]
  unfold envSet
  rw [if_pos rfl]
/-! ## Scenario runner (`test_basic_functionality`) -/

/-- Python truthiness of a decoded JSON value (`if response:`): False, 0,
empty string, empty list and empty dict are falsy. -/
def truthy : JVal → Bool
  | .null => false
  | .bool b => b
  | .int n => decide (n ≠ 0)
  | .str s => !s.isEmpty
  | .arr xs => !xs.isEmpty
  | .obj fs => !fs.isEmpty

/-- Substring containment, for `in` on strings. -/
def strContains (hay needle : List Char) : Bool :=
  match hay with
  | [] => needle.isEmpty
  | _ :: t => needle.isPrefixOf hay || strContains t needle

/-- `key in response` as Python evaluates it: a mapping checks its keys, a
sequence checks membership of its elements, a string checks substring
containment; `in` on a number, boolean or `None` raises `TypeError`. -/
def pyContains (resp : JVal) (key : List Char) : Except Unit Bool :=
  match resp with
  | .obj fs => .ok (fs.any (fun f => decide (f.1 = key)))
  | .arr xs => .ok (xs.any (fun x => match x with
      | .str s => decide (s = key)
      | _ => false))
  | .str s => .ok (strContains s key)
  | _ => .error ()

/-- `response[key]`: mapping lookup (`KeyError` when the key is missing);
indexing anything else with a string raises `TypeError`. -/
def pyIndex (resp : JVal) (key : List Char) : Except Unit JVal :=
  match resp with
  | .obj fs =>
    match lookupField fs key with
    | some v => .ok v
    | none => .error ()
  | _ => .error ()

/-- `len(x)`: strings, lists and dicts are sized; numbers, booleans and
`None` raise `TypeError`. -/
def pyLen : JVal → Except Unit Nat
  | .str s => .ok s.length
  | .arr xs => .ok xs.length
  | .obj fs => .ok fs.length
  | _ => .error ()

/-- The `⟨✅, ❌, ⚠️⟩` classification a scenario prints. -/
inductive Outcome where
  | pass : Outcome
  | fail : Outcome
  | warn : Outcome
deriving Repr, DecidableEq

/-- One tool entry in scenario 1's loop: `tool['name']` and
`tool['description'][:60]` must not raise (the description must support
slicing, i.e. be a string or a list). -/
def toolPrintable (tool : JVal) : Except Unit Unit := do
  let _ ← pyIndex tool (chars "name")
  let d ← pyIndex tool (chars "description")
  match d with
  | .str _ => .ok ()
  | .arr _ => .ok ()
  | _ => .error ()

def checkToolList : List JVal → Except Unit Unit
  | [] => .ok ()
  | tool :: t => do
    toolPrintable tool
    checkToolList t

/-- Scenario 1 (`tools/list`): the code path of the first `if` block.  A
raise inside the block (e.g. `response["result"]["tools"]` on a result
without `tools`) propagates to the caller's `except` handler. -/
def classify1 (response : Option JVal) : Except Unit Outcome :=
  match response with
  | none => .ok .fail
  | some r =>
    if truthy r = false then .ok .fail
    else do
      let b ← pyContains r (chars "result")
      if b = false then pure .fail
      else do
        let res ← pyIndex r (chars "result")
        let tools ← pyIndex res (chars "tools")
        let _ ← pyLen tools
        match tools with
        | .arr xs => do
          checkToolList (xs.take 5)
          pure .pass
        | .str s => if s.take 5 = [] then pure .pass else .error ()
        | _ => .error ()

/-- Scenario 2 (`tools/call ndb_list_databases`). -/
def classify2 (response : Option JVal) : Except Unit Outcome :=
  match response with
  | none => .ok .fail
  | some r =>
    if truthy r = false then .ok .fail
    else do
      let b ← pyContains r (chars "result")
      if b = false then pure .fail
      else do
        let res ← pyIndex r (chars "result")
        let content ← pyIndex res (chars "content")
        if truthy content = false then pure .warn
        else do
          let n ← pyLen content
          if n = 0 then pure .warn
          else do
            let first ←
              match content with
              | .arr xs =>
                match xs.head? with
                | some x => Except.ok x
                | none => Except.error ()
              | .str s =>
                match s.head? with
                | some c => Except.ok (JVal.str [c])
                | none => Except.error ()
              | _ => Except.error ()
            match first with
            | .obj fs =>
              match lookupField fs (chars "type") with
              | some (.str ty) =>
                if ty = chars "text" then
                  match (lookupField fs (chars "text")).getD (.str []) with
                  | .str _ => pure .pass
                  | _ => .error ()
                else pure .pass
              | _ => pure .pass
            | _ => .error ()

/-- Scenario 3 (`tools/call ndb_list_clusters`): only presence of a result
is checked. -/
def classify3 (response : Option JVal) : Except Unit Outcome :=
  match response with
  | none => .ok .fail
  | some r =>
    if truthy r = false then .ok .fail
    else do
      let b ← pyContains r (chars "result")
      pure (if b then .pass else .fail)

/-- Scenario 4 (`tools/call invalid_tool_name`): an error object is the
expected outcome; its absence prints the `⚠️ Unexpected response` warning. -/
def classify4 (response : Option JVal) : Except Unit Outcome :=
  match response with
  | none => .ok .warn
  | some r =>
    if truthy r = false then .ok .warn
    else do
      let b ← pyContains r (chars "error")
      if b then do
        let e ← pyIndex r (chars "error")
        let _ ← pyIndex e (chars "message")
        pure .pass
      else pure .warn

/-- The four requests the runner sends, in order. -/
def req1 : JVal := buildRequest (chars "tools/list") none 1

def req2 : JVal := buildRequest (chars "tools/call")
  (some [(chars "name", .str (chars "ndb_list_databases")),
         (chars "arguments", .obj [])]) 1

def req3 : JVal := buildRequest (chars "tools/call")
  (some [(chars "name", .str (chars "ndb_list_clusters")),
         (chars "arguments", .obj [])]) 1

def req4 : JVal := buildRequest (chars "tools/call")
  (some [(chars "name", .str (chars "invalid_tool_name")),
         (chars "arguments", .obj [])]) 1

/-- What one run of the scenario loop leaves behind: the requests that were
issued, the outcomes classified, and whether a classification raised
(jumping to the function's `except` handler and skipping the rest). -/
structure RunResult where
  sent : List JVal
  outcomes : List Outcome
  raised : Bool
deriving Repr

/-- The scenario loop of `test_basic_functionality`, as straight-line code
inside one `try`: each scenario sends its request and classifies whatever
`send_request` returned (`resp i`); an exception in a classification skips
every later scenario. -/
def runScenarios (resp : Nat → Option JVal) : RunResult :=
  match classify1 (resp 0) with
  | .error _ => ⟨[req1], [], true⟩
  | .ok o1 =>
    match classify2 (resp 1) with
    | .error _ => ⟨[req1, req2], [o1], true⟩
    | .ok o2 =>
      match classify3 (resp 2) with
      | .error _ => ⟨[req1, req2, req3], [o1, o2], true⟩
      | .ok o3 =>
        match classify4 (resp 3) with
        | .error _ => ⟨[req1, req2, req3, req4], [o1, o2, o3], true⟩
        | .ok o4 => ⟨[req1, req2, req3, req4], [o1, o2, o3, o4], false⟩

/-- Observable events of one `test_basic_functionality` run. -/
inductive Ev where
  | start : Ev
  | send (req : JVal) : Ev
  | stopCall : Ev

def isStop : Ev → Bool
  | .stopCall => true
  | _ => false

/-- The events the `try` body emits: sends in scenario order, cut short by
an operator interrupt (`interruptAt = some i` fires before scenario `i`
sends) or by a classification exception. -/
def scenarioEvents (resp : Nat → Option JVal) (interruptAt : Option Nat) :
    List Ev :=
  if interruptAt = some 0 then []
  else
    .send req1 ::
    match classify1 (resp 0) with
    | .error _ => []
    | .ok _ =>
      if interruptAt = some 1 then []
      else
        .send req2 ::
        match classify2 (resp 1) with
        | .error _ => []
        | .ok _ =>
          if interruptAt = some 2 then []
          else
            .send req3 ::
            match classify3 (resp 2) with
            | .error _ => []
            | .ok _ =>
              if interruptAt = some 3 then []
              else
                .send req4 ::
                match classify4 (resp 3) with
                | .error _ => []
                | .ok _ => []

/-- `test_basic_functionality` as a trace: the `try` body (`start_server`,
which may itself raise, then the scenario loop, which may raise or be
interrupted), the `except KeyboardInterrupt` / `except Exception` handlers
that swallow the exception, and the `finally` block that always invokes
`client.stop_server()`. -/
def test_basic_functionality (startOk : Bool) (interruptAt : Option Nat)
    (resp : Nat → Option JVal) : List Ev :=
  (if startOk then Ev.start :: scenarioEvents resp interruptAt else []) ++
    [Ev.stopCall]

theorem scenarioEvents_no_stop (resp : Nat → Option JVal)
    (interruptAt : Option Nat) :
    (scenarioEvents resp interruptAt).countP isStop = 0 := by
  unfold scenarioEvents
  repeat' split
  all_goals simp [isStop]

/-! ## CLI front end (`main`) -/

/-- A child process `main` can spawn: the MCP server under test or the
connection-test script. -/
inductive MainEv where
  | spawnServer : MainEv
  | spawnConn : MainEv
deriving Repr, DecidableEq

/-- What one run of `main` produces: the exit status (0 when the run
completes) and which child processes were spawned. -/
structure MainResult where
  exitCode : Nat
  spawns : List MainEv
deriving Repr, DecidableEq

def required_vars : List (List Char) :=
  [chars "NDB_BASE_URL", chars "NDB_USERNAME", chars "NDB_PASSWORD"]

/-- `not os.getenv(var)`: unset and empty both count as missing. -/
def getenvFalsy (env : EnvMap) (k : List Char) : Bool :=
  match env k with
  | none => true
  | some s => s.isEmpty

/-- `main`: require the built artifact, load the `.env` file, abort with
exit status 1 when a required variable is missing, then dispatch on the
menu choice (each branch spawning its child processes). -/
def main_model (distExists : Bool) (env : EnvMap)
    (envFile : Option (List (List Char))) (choice : List Char) : MainResult :=
  if distExists = false then ⟨1, []⟩
  else
    if required_vars.any (getenvFalsy (load_env_file env envFile)) then
      ⟨1, []⟩
    else
      if choice = chars "1" then ⟨0, [.spawnServer]⟩
      else if choice = chars "2" then ⟨0, [.spawnConn]⟩
      else if choice = chars "3" then ⟨0, [.spawnConn, .spawnServer]⟩
      else ⟨1, []⟩

/-! ## Claim theorems -/

/-- Claim C1: for every well-formed `KEY=VALUE` line of the configuration
file, if the variable is not set when the loader reaches that line, it is
present afterwards with whitespace trimmed and exactly one layer of
matching surrounding quotes stripped; and every variable already set before
loading keeps its value whatever the file contains. -/
theorem claim_C1 (env : EnvMap) (pre post : List (List Char))
    (line : List Char) :
    (wellFormedLine line →
      load_env_file env (some pre) (lineKey line) = none →
      load_env_file env (some (pre ++ line :: post)) (lineKey line) =
        some (lineVal line)) ∧
    (∀ lines k v, env k = some v → load_env_file env (some lines) k = some v)
    := by
  constructor
  · intro hwf hnone
    unfold load_env_file at hnone ⊢
    simp only [] at hnone ⊢
    rw [List.foldl_append, List.foldl_cons]
    exact foldl_preserve _ post _ _
      (processLine_sets (pre.foldl processLine env) line hwf hnone)
  · intro lines k v h
    exact foldl_preserve env lines k v h

theorem claim_C1_witness :
    load_env_file
        (fun q => if q = chars "SET" then some (chars "old") else none)
        (some [chars "# comment", chars " KEY = \"hello\" ",
          chars "KEY=other", chars "SET=new"])
        (lineKey (chars " KEY = \"hello\" ")) =
      some (lineVal (chars " KEY = \"hello\" ")) ∧
    load_env_file
        (fun q => if q = chars "SET" then some (chars "old") else none)
        (some [chars "# comment", chars " KEY = \"hello\" ",
          chars "KEY=other", chars "SET=new"])
        (chars "SET") = some (chars "old") :=
  ⟨(claim_C1 (fun q => if q = chars "SET" then some (chars "old") else none)
      [chars "# comment"] [chars "KEY=other", chars "SET=new"]
      (chars " KEY = \"hello\" ")).1 (by decide) (by decide),
   (claim_C1 (fun q => if q = chars "SET" then some (chars "old") else none)
      [] [] []).2
      [chars "# comment", chars " KEY = \"hello\" ",
        chars "KEY=other", chars "SET=new"]
      (chars "SET") (chars "old") (by decide)⟩

/-- Claim C2: every request the client builds from a method name, parameter
mapping and integer id, once serialized to its wire line and decoded back
exactly as the reading side does (`json.loads` after `str.strip`), yields
the same structure, in particular with an identical id. -/
theorem claim_C2 (method : List Char)
    (params : Option (List (List Char × JVal))) (request_id : Int) :
    loads (pyStrip (requestLine method params request_id)) =
      some (buildRequest method params request_id) ∧
    getField (buildRequest method params request_id) (chars "id") =
      some (.int request_id) :=
  ⟨loads_requestLine method params request_id, rfl⟩

/-- Claim C5: on every exit path of a scenario run — normal completion,
start failure, a classification exception, or operator interruption at any
point — `stop_server` is invoked exactly once. -/
theorem claim_C5 (startOk : Bool) (interruptAt : Option Nat)
    (resp : Nat → Option JVal) :
    (test_basic_functionality startOk interruptAt resp).countP isStop = 1
    := by
  unfold test_basic_functionality
  rw [List.countP_append]
  cases startOk with
  | false => simp [isStop]
  | true => simp [isStop, scenarioEvents_no_stop]

/-- Claim C6: `stop_server` is idempotent on the client state — a second
call leaves exactly the terminal state of the first, for every state,
including the never-started one (`self.process = None`). -/
theorem claim_C6 (s : Option Proc) :
    (stop_server (stop_server s).1).1 = (stop_server s).1 := by
  match s with
  | none => rfl
  | some p => simp [stop_server, pwait, terminate]

/-- Claim C7: when any required configuration variable is unset after the
`.env` load, `main` exits with a non-zero status and spawns no child
process. -/
theorem claim_C7 (distExists : Bool) (env : EnvMap)
    (envFile : Option (List (List Char))) (choice : List Char)
    (h : ∃ v ∈ required_vars, load_env_file env envFile v = none) :
    (main_model distExists env envFile choice).exitCode ≠ 0 ∧
    (main_model distExists env envFile choice).spawns = [] := by
  unfold main_model
  cases distExists with
  | false => exact ⟨by simp, by simp⟩
  | true =>
    rw [if_neg (by simp)]
    have hany :
        required_vars.any (getenvFalsy (load_env_file env envFile)) = true
        := by
      obtain ⟨v, hv, hnone⟩ := h
      apply List.any_eq_true.mpr
      exact ⟨v, hv, by simp [getenvFalsy, hnone]⟩
    rw [if_pos hany]
    exact ⟨by decide, rfl⟩

theorem claim_C7_witness :
    (main_model true (fun _ => none) none (chars "1")).exitCode ≠ 0 ∧
    (main_model true (fun _ => none) none (chars "1")).spawns = [] :=
  claim_C7 true (fun _ => none) none (chars "1")
    ⟨chars "NDB_BASE_URL", by decide, rfl⟩

/-- Claim C9: calling `send_request` on a client whose transport was never
started fails with the "Server not started" outcome and has no side
effects: nothing is written and the process state is unchanged. -/
theorem claim_C9 (writeOk : Bool) (readLine method : List Char)
    (params : Option (List (List Char × JVal))) (request_id : Int) :
    send_request none writeOk readLine method params request_id =
      ⟨none, [], some .serverNotStarted, none⟩ := rfl

/-- Claim C10: the encoded request consists of exactly the protocol-version
constant, the id and the method when the parameter mapping is absent or
empty, and carries a `params` member exactly when a non-empty mapping was
supplied. -/
theorem claim_C10 (method : List Char)
    (params : Option (List (List Char × JVal))) (request_id : Int) :
    ((params = none ∨ params = some []) →
      buildRequest method params request_id =
        .obj [(chars "jsonrpc", .str (chars "2.0")),
              (chars "id", .int request_id),
              (chars "method", .str method)]) ∧
    ((getField (buildRequest method params request_id)
        (chars "params")).isSome = true ↔
      ∃ l, params = some l ∧ l ≠ []) := by
  constructor
  · rintro (rfl | rfl) <;> rfl
  · match params with
    | none =>
      constructor
      · intro h
        have h2 : (getField (buildRequest method none request_id)
            (chars "params")).isSome = false := rfl
        rw [h2] at h
        cases h
      · rintro ⟨l, hl, _⟩
        cases hl
    | some [] =>
      constructor
      · intro h
        have h2 : (getField (buildRequest method (some []) request_id)
            (chars "params")).isSome = false := rfl
        rw [h2] at h
        cases h
      · rintro ⟨l, hl, hne⟩
        cases hl
        exact absurd rfl hne
    | some (f :: t) =>
      constructor
      · intro _
        exact ⟨f :: t, rfl, by simp⟩
      · intro _
        rfl

theorem claim_C10_witness :
    buildRequest (chars "tools/list") none 1 =
      .obj [(chars "jsonrpc", .str (chars "2.0")), (chars "id", .int 1),
            (chars "method", .str (chars "tools/list"))] ∧
    (getField (buildRequest (chars "tools/call")
        (some [(chars "name", .str (chars "x"))]) 1)
      (chars "params")).isSome = true :=
  ⟨(claim_C10 (chars "tools/list") none 1).1 (Or.inl rfl),
   (claim_C10 (chars "tools/call") (some [(chars "name", .str (chars "x"))])
      1).2.mpr ⟨[(chars "name", .str (chars "x"))], rfl, by simp⟩⟩

/-- The first scenario response refuting claim C3: truthy, has a `result`
member, but the result lacks `tools`, so scenario 1's block raises. -/
def respBadC3 : Nat → Option JVal :=
  fun n => if n = 0 then some (.obj [(chars "result", .obj [])]) else none

/-- Counterexample to claim C3 as stated: with a malformed first response
(`result` present but without `tools`), scenario 1 raises; only its request
was ever issued, so scenarios 2-4 are prevented from issuing theirs. -/
theorem claim_C3_counterexample :
    (runScenarios respBadC3).sent.length = 1 ∧
    (runScenarios respBadC3).outcomes = [] ∧
    (runScenarios respBadC3).raised = true :=
  ⟨rfl, rfl, rfl⟩

/-- Claim C3 (amended): when no scenario's classification raises — which
holds for absent responses and for responses shaped so every inspected
member exists — all four scenarios issue their requests in order and each
outcome is exactly its own response's classification, independent of the
others; a response that makes a classification raise aborts the remaining
scenarios instead. -/
theorem claim_C3 (resp : Nat → Option JVal) (o1 o2 o3 o4 : Outcome)
    (h1 : classify1 (resp 0) = .ok o1) (h2 : classify2 (resp 1) = .ok o2)
    (h3 : classify3 (resp 2) = .ok o3) (h4 : classify4 (resp 3) = .ok o4) :
    runScenarios resp = ⟨[req1, req2, req3, req4], [o1, o2, o3, o4], false⟩
    := by
  unfold runScenarios
  rw [h1, h2, h3, h4]

theorem claim_C3_witness :
    runScenarios (fun _ => none) =
      ⟨[req1, req2, req3, req4], [.fail, .fail, .fail, .warn], false⟩ :=
  claim_C3 (fun _ => none) .fail .fail .fail .warn rfl rfl rfl rfl

/-- Counterexample to claim C4 as stated: a "no data" read and an
undecodable response text produce the same `None` return value, so the two
outcomes are not distinguishable at the send operation's result. -/
theorem claim_C4_counterexample :
    (send_request (some ⟨none⟩) true [] (chars "tools/list") none 1).ret =
      none ∧
    (send_request (some ⟨none⟩) true (chars "oops") (chars "tools/list")
      none 1).ret = none :=
  ⟨rfl, rfl⟩

/-- Claim C4 (amended): a "no data" read yields the distinct "No response
from server" diagnostic on a non-exception path, and text that fails to
decode yields the "Error sending request" diagnostic; the two outcomes are
distinguishable in those diagnostics, but both return the same `None`
result. -/
theorem claim_C4 (p : Proc) (method : List Char)
    (params : Option (List (List Char × JVal))) (request_id : Int)
    (line : List Char) (hne : line ≠ [])
    (hbad : (loads (pyStrip line)).isNone = true) :
    (send_request (some p) true [] method params request_id).msg =
      some .noResponse ∧
    (send_request (some p) true [] method params request_id).ret = none ∧
    (send_request (some p) true line method params request_id).msg =
      some .errorSending ∧
    (send_request (some p) true line method params request_id).ret = none ∧
    ClientMsg.noResponse ≠ ClientMsg.errorSending := by
  have hbad2 : loads (pyStrip line) = none := Option.isNone_iff_eq_none.mp hbad
  have ha : send_request (some p) true [] method params request_id =
      ⟨none, [requestLine method params request_id], some .noResponse,
        some p⟩ := by
    unfold send_request
    simp only []
    simp
  have hb : send_request (some p) true line method params request_id =
      ⟨none, [requestLine method params request_id], some .errorSending,
        some p⟩ := by
    unfold send_request
    simp only []
    rw [if_neg hne, hbad2]
    simp
  exact ⟨by rw [ha], by rw [ha], by rw [hb], by rw [hb], by decide⟩

theorem claim_C4_witness :
    (send_request (some ⟨none⟩) true [] (chars "tools/list") none 2).msg =
      some .noResponse ∧
    (send_request (some ⟨none⟩) true [] (chars "tools/list") none 2).ret =
      none ∧
    (send_request (some ⟨none⟩) true (chars "nonsense") (chars "tools/list")
      none 2).msg = some .errorSending ∧
    (send_request (some ⟨none⟩) true (chars "nonsense") (chars "tools/list")
      none 2).ret = none ∧
    ClientMsg.noResponse ≠ ClientMsg.errorSending :=
  claim_C4 ⟨none⟩ (chars "tools/list") none 2 (chars "nonsense")
    (by decide) (by decide)

theorem lookup_none_any (fs : List (List Char × JVal)) (key : List Char)
    (h : lookupField fs key = none) :
    fs.any (fun f => decide (f.1 = key)) = false := by
  induction fs with
  | nil => rfl
  | cons f t ih =>
    match f with
    | (k, v) =>
      unfold lookupField at h
      by_cases hk : k = key
      · rw [if_pos hk] at h
        cases h
      · rw [if_neg hk] at h
        simp [List.any_cons, hk, ih h]

/-- Counterexample to claim C8 as stated: a scenario-4 response without an
error object is classified as a warning (`⚠️ Unexpected response`), not as
the failing outcome. -/
theorem claim_C8_counterexample :
    classify4 (some (.obj [(chars "result", JVal.null)])) = .ok .warn ∧
    Outcome.warn ≠ Outcome.fail :=
  ⟨rfl, by decide⟩

/-- Claim C8 (amended): the stub error response is classified as successful
error handling (pass); a response without an error object — including an
absent response — is classified as a warning, not as a failure. -/
theorem claim_C8 :
    classify4 (some (.obj [(chars "jsonrpc", .str (chars "2.0")),
      (chars "id", .int 1),
      (chars "error", .obj [(chars "code", .int (-32601)),
        (chars "message", .str (chars "Method not found"))])])) =
      .ok .pass ∧
    (∀ fs, lookupField fs (chars "error") = none →
      classify4 (some (.obj fs)) = .ok .warn) ∧
    classify4 none = .ok .warn := by
  refine ⟨rfl, ?_, rfl⟩
  intro fs hnone
  match fs with
  | [] => rfl
  | f :: t =>
    have hc : pyContains (.obj (f :: t)) (chars "error") = .ok false := by
      unfold pyContains
      simp only []
      rw [lookup_none_any (f :: t) (chars "error") hnone]
    unfold classify4
    simp only []
    rw [if_neg (by simp [truthy])]
    simp [hc, Bind.bind, Except.bind, Pure.pure, Except.pure]

theorem claim_C8_witness :
    classify4 (some (.obj [(chars "jsonrpc", .str (chars "2.0")),
      (chars "id", .int 1),
      (chars "error", .obj [(chars "code", .int (-32601)),
        (chars "message", .str (chars "Method not found"))])])) =
      .ok .pass ∧
    classify4 (some (.obj [(chars "id", .int 1)])) = .ok .warn :=
  ⟨claim_C8.1, claim_C8.2.1 [(chars "id", .int 1)] rfl⟩
